import Mathlib

/-!
# Verification of `torchgpipe/skip/skippable.py`

A shallow embedding of the skip-connection core of torchgpipe:
the `Skippable` module wrapper (`namespaced`, `isolate`, `dispatch`,
`forward`) and the static verifier `verify_skippables`, together with
theorems settling the specification claims.

Python dictionaries are embedded as association lists; Python `frozenset`
declarations as `List String` (with `Nodup` hypotheses where set-ness
matters); object identity of `Namespace` instances as a `Nat` token, and
object identity of `Skippable` instances as a `Nat` field `instId`.
`SkipTracker` and `Namespace` live in repository files that are not part
of the given sources, so they are modelled from the spec where noted.
-/

namespace TorchGPipe

/-- A `Namespace` is an identity-comparable opaque token (`namespace.py`,
not among the given sources; the spec says equality is identity equality,
so we embed an instance as the `Nat` identity of the Python object). -/
abbrev Namespace : Type := Nat

/-- The key addressing one slot of a `SkipTracker`.  The namespace
component is `Option Namespace` because `Skippable.namespaced` produces
Python `None` for a name that was never isolated. -/
abbrev SkipKey : Type := Option Namespace × String

/-! ## Association lists standing for Python `dict` -/

/-- Python `d.get(k)`: first binding of `k`, if any. -/
def listLookup {κ β : Type} [DecidableEq κ] : List (κ × β) → κ → Option β
  | [], _ => none
  | (k, v) :: rest, k' => if k' = k then some v else listLookup rest k'

/-- Python `d[k] = v`: overwrite the binding in place, or append a fresh one. -/
def listInsert {κ β : Type} [DecidableEq κ] (k : κ) (v : β) : List (κ × β) → List (κ × β)
  | [] => [(k, v)]
  | (k', v') :: rest => if k = k' then (k', v) :: rest else (k', v') :: listInsert k v rest

/-- Python `d.pop(k)` minus the return value: remove the binding of `k`. -/
def listErase {κ β : Type} [DecidableEq κ] (k : κ) : List (κ × β) → List (κ × β)
  | [] => []
  | (k', v') :: rest => if k = k' then rest else (k', v') :: listErase k rest

/-! ## Skippable declarations, as the verifier sees them

`verify_skippables` consumes only the static data of each layer: its
child name in the `nn.Sequential`, its declared stashable and poppable
name sets, and its per-instance namespace override table. -/

/-- The static data of one `Skippable` layer used by `verify_skippables`:
`stashable_names`, `poppable_names` (class-level frozensets, embedded as
lists) and the instance's `namespaces` override dict. -/
structure SkipDecl where
  stashable_names : List String
  poppable_names : List String
  namespaces : List (String × Namespace)
deriving DecidableEq

/-- The method `Skippable.namespaced(name)`: the routing key `(self.namespaces.get(name), name)`.
Note that a name never isolated gets namespace `None`. -/
def SkipDecl.namespaced (d : SkipDecl) (name : String) : SkipKey :=
  (listLookup d.namespaces name, name)

/-- One entry of `module.named_children()`: the child name paired with
either a `Skippable` layer's declaration or `none` for a non-`Skippable`
layer (which `verify_skippables` skips). -/
abbrev VLayer : Type := String × Option SkipDecl

/-- The structured content of one verifier message, one constructor per
format string in `verify_skippables`. -/
inductive VMsg where
  | selfConflict (layer name : String)
  | redeclaredStashable (layer name : String)
  | redeclaredPoppable (layer name : String)
  | poppableNotStashed (layer name : String)
  | notPoppedByAny (name : String)
deriving DecidableEq

/-- The skip name a verifier message is about. -/
def VMsg.skipName : VMsg → String
  | .selfConflict _ n => n
  | .redeclaredStashable _ n => n
  | .redeclaredPoppable _ n => n
  | .poppableNotStashed _ n => n
  | .notPoppedByAny n => n

/-- The format string each message is rendered with in `verify_skippables`. -/
def renderVMsg : VMsg → String
  | .selfConflict l n =>
      "'" ++ l ++ "' declared '" ++ n ++ "' both as stashable and as poppable"
  | .redeclaredStashable l n => "'" ++ l ++ "' redeclared '" ++ n ++ "' as stashable"
  | .redeclaredPoppable l n => "'" ++ l ++ "' redeclared '" ++ n ++ "' as poppable"
  | .poppableNotStashed l n =>
      "'" ++ l ++ "' declared '" ++ n ++ "' as poppable but it was not stashed"
  | .notPoppedByAny n => "any module did not declare '" ++ n ++ "' as poppable"

/-- The accumulator of the single scan of `verify_skippables`:
the `stashed` and `popped` key sets and the `msgs` list. -/
structure VState where
  stashed : List SkipKey
  popped : List SkipKey
  msgs : List VMsg
deriving DecidableEq

/-- The body of `for ns, name in layer.stashable(): ...` for one name. -/
def stashStep (layerName : String) (d : SkipDecl) (st : VState) (name : String) : VState :=
  if name ∈ d.poppable_names then st
  else if d.namespaced name ∈ st.stashed then
    { st with msgs := st.msgs ++ [VMsg.redeclaredStashable layerName name] }
  else
    { st with stashed := st.stashed ++ [d.namespaced name] }

/-- The body of `for ns, name in layer.poppable(): ...` for one name. -/
def popStep (layerName : String) (d : SkipDecl) (st : VState) (name : String) : VState :=
  if name ∈ d.stashable_names then st
  else if d.namespaced name ∈ st.popped then
    { st with msgs := st.msgs ++ [VMsg.redeclaredPoppable layerName name] }
  else if d.namespaced name ∉ st.stashed then
    { st with msgs := st.msgs ++ [VMsg.poppableNotStashed layerName name] }
  else
    { st with popped := st.popped ++ [d.namespaced name] }

/-- The first loop of the per-layer scan: one message per name in
`layer.stashable_names & layer.poppable_names`. -/
def selfConflictMsgs (layerName : String) (d : SkipDecl) : List VMsg :=
  (d.stashable_names.filter (fun n => n ∈ d.poppable_names)).map
    (fun n => VMsg.selfConflict layerName n)

/-- Processing of one `named_children()` entry by `verify_skippables`:
non-`Skippable` layers are skipped; a `Skippable` layer first reports
every name declared both stashable and poppable, then runs the stash-side
loop and the pop-side loop. -/
def processLayer (st : VState) (layer : VLayer) : VState :=
  match layer.2 with
  | none => st
  | some d =>
      d.poppable_names.foldl (popStep layer.1 d)
        (d.stashable_names.foldl (stashStep layer.1 d)
          ⟨st.stashed, st.popped, st.msgs ++ selfConflictMsgs layer.1 d⟩)

/-- The verifier state after scanning the whole sequence. -/
def verifyState (layers : List VLayer) : VState :=
  layers.foldl processLayer ⟨[], [], []⟩

/-- The post-scan messages: one per key in `stashed - popped`. -/
def finalMsgs (st : VState) : List VMsg :=
  (st.stashed.filter (fun k => k ∉ st.popped)).map (fun k => VMsg.notPoppedByAny k.2)

/-- All messages `verify_skippables` collects for a sequence, in order. -/
def verifyMsgs (layers : List VLayer) : List VMsg :=
  (verifyState layers).msgs ++ finalMsgs (verifyState layers)

/-- Python `sep.join(parts)`. -/
def joinSep (sep : String) : List String → String
  | [] => ""
  | [x] => x
  | x :: xs => x ++ sep ++ joinSep sep xs

/-- The text of the single `TypeError` raised by `verify_skippables`. -/
def verifyErrorText (msgs : List VMsg) : String :=
  "one or more pairs of stash and pop not matched:\n\n" ++
    joinSep "\n" (msgs.map (fun m => "* " ++ renderVMsg m))

/-- The verifier `verify_skippables(module)`: `none` on success, otherwise `some` of the
one aggregated `TypeError` message. -/
def verify_skippables (layers : List VLayer) : Option String :=
  let msgs := verifyMsgs layers
  if msgs = [] then none else some (verifyErrorText msgs)

/-! ## The cooperative stage computation

A `SkippableModule`'s `forward` either returns its output directly (no
`yield`) or is a generator interleaving `stash`/`pop` commands with the
computation.  `Gen` is that generator, reified: `popCmd` carries the
continuation receiving the injected tensor (the value of
`yield pop(name)`). -/

/-- A reified stage generator over tensor type `Tensor` with final output
type `α`. -/
inductive Gen (Tensor α : Type) where
  | ret (out : α)
  | stashCmd (name : String) (tensor : Option Tensor) (k : Gen Tensor α)
  | popCmd (name : String) (k : Option Tensor → Gen Tensor α)

/-- What `self.module(input)` evaluates to inside `Skippable.dispatch`:
either a plain output (`not isinstance(generator, Generator)`) or a
generator. -/
inductive ModuleResult (Tensor α : Type) where
  | plain (out : α)
  | gen (g : Gen Tensor α)

/-- A `Skippable` module instance: the class-level `stashable_names` and
`poppable_names`, the per-instance `namespaces` override dict, the wrapped
user module, and `instId`, the Python object identity of the instance
(needed to speak about two distinct instances of the same stage type). -/
structure SkippableInst (Tensor α : Type) where
  instId : Nat
  stashable_names : List String
  poppable_names : List String
  namespaces : List (String × Namespace)
  module : α → ModuleResult Tensor α

/-- The method `Skippable.namespaced(name)` on an instance:
`(self.namespaces.get(name), name)`. -/
def SkippableInst.namespaced {Tensor α : Type} (s : SkippableInst Tensor α)
    (name : String) : SkipKey :=
  (listLookup s.namespaces name, name)

/-- The static declaration data of an instance, as `verify_skippables`
sees it. -/
def SkippableInst.decl {Tensor α : Type} (s : SkippableInst Tensor α) : SkipDecl :=
  ⟨s.stashable_names, s.poppable_names, s.namespaces⟩

/-- The names affected by `isolate(ns, only=...)`: the names of `only`,
or `self.stashable_names | self.poppable_names` when `only` is omitted
(list concatenation has the same membership as the frozenset union). -/
def isolateTargets {Tensor α : Type} (s : SkippableInst Tensor α)
    (only : Option (List String)) : List String :=
  match only with
  | none => s.stashable_names ++ s.poppable_names
  | some l => l

/-- The method `Skippable.isolate(ns, only=...)`: set `self.namespaces[name] = ns`
for every name in `only` (or in `stashable_names | poppable_names` when
`only` is omitted) and return `self`. -/
def SkippableInst.isolate {Tensor α : Type} (s : SkippableInst Tensor α)
    (ns : Namespace) (only : Option (List String)) : SkippableInst Tensor α :=
  { s with namespaces :=
      (isolateTargets s only).foldl (fun m name => listInsert name ns m) s.namespaces }

/-! ## SkipTracker (modelled from the spec)

`torchgpipe/skip/tracker.py` is not among the given sources. -/

/-- The per-micro-batch tracker: a dict from `SkipKey` to the stored
`Optional[Tensor]`. -/
abbrev Tracker (Tensor : Type) : Type := List (SkipKey × Option Tensor)

/-- Modelled from the spec: `SkipTracker.load(batch, ns, name)` removes
and returns the slot for `(ns, name)`, and fails (`KeyError`, reported by
the caller as "not stashed") if the key was never stashed; the batch
context is implicit in which tracker instance is used. -/
def trackerLoad {Tensor : Type} (tr : Tracker Tensor) (key : SkipKey) :
    Option (Option Tensor × Tracker Tensor) :=
  match listLookup tr key with
  | none => none
  | some v => some (v, listErase key tr)

/-- Modelled from the spec: `SkipTracker.save(batch, ns, name, tensor)`
inserts or overwrites the slot for `(ns, name)`. -/
def trackerSave {Tensor : Type} (tr : Tracker Tensor) (key : SkipKey)
    (tensor : Option Tensor) : Tracker Tensor :=
  listInsert key tensor tr

/-! ## Dispatch -/

/-- The runtime errors `Skippable.forward` (and its handlers) can raise,
one constructor per `raise` site, carrying the names the message lists. -/
inductive RErr where
  | notStashed (name : String)
  | notDeclaredStashable (name : String)
  | notDeclaredPoppable (name : String)
  | popKeyError (name : String)
  | mustBeStashed (names : List String)
  | mustBePopped (names : List String)
deriving DecidableEq

/-- The state the two handler closures of `forward` mutate: the
`stashed_tensors` dict and the `poppable_tensors` dict. -/
structure DState (Tensor : Type) where
  stashed : List (String × Option Tensor)
  poppable : List (String × Option Tensor)

/-- The generator loop of `Skippable.dispatch`: feed each yielded command
to the matching handler and resume, until `StopIteration` carries the
output. -/
def dispatchGen {Tensor α σ : Type}
    (handleStash : String → Option Tensor → σ → Except RErr σ)
    (handlePop : String → σ → Except RErr (Option Tensor × σ)) :
    Gen Tensor α → σ → Except RErr (α × σ)
  | .ret out, st => .ok (out, st)
  | .stashCmd name tensor k, st =>
      match handleStash name tensor st with
      | .error e => .error e
      | .ok st' => dispatchGen handleStash handlePop k st'
  | .popCmd name k, st =>
      match handlePop name st with
      | .error e => .error e
      | .ok (tensor, st') => dispatchGen handleStash handlePop (k tensor) st'

/-- The method `Skippable.dispatch(input, handle_stash, handle_pop)`: run
`self.module(input)`; if it is not a generator its value is the output,
otherwise drive the generator loop. -/
def dispatch {Tensor α σ : Type} (s : SkippableInst Tensor α)
    (handleStash : String → Option Tensor → σ → Except RErr σ)
    (handlePop : String → σ → Except RErr (Option Tensor × σ))
    (input : α) (st : σ) : Except RErr (α × σ) :=
  match s.module input with
  | .plain out => .ok (out, st)
  | .gen g => dispatchGen handleStash handlePop g st

/-- The `handle_stash` closure of `forward`: reject a name that is not
declared stashable, otherwise record `stashed_tensors[name] = tensor`. -/
def handle_stash {Tensor α : Type} (s : SkippableInst Tensor α)
    (name : String) (tensor : Option Tensor) (st : DState Tensor) :
    Except RErr (DState Tensor) :=
  if name ∈ s.stashable_names then
    .ok { st with stashed := listInsert name tensor st.stashed }
  else
    .error (RErr.notDeclaredStashable name)

/-- The `handle_pop` closure of `forward`: reject a name that is not
declared poppable, otherwise `poppable_tensors.pop(name)` (a `KeyError`
if the entry was already consumed). -/
def handle_pop {Tensor α : Type} (s : SkippableInst Tensor α)
    (name : String) (st : DState Tensor) :
    Except RErr (Option Tensor × DState Tensor) :=
  if name ∈ s.poppable_names then
    match listLookup st.poppable name with
    | none => .error (RErr.popKeyError name)
    | some tensor => .ok (tensor, { st with poppable := listErase name st.poppable })
  else
    .error (RErr.notDeclaredPoppable name)

/-- The first phase of `forward`: for each `(ns, name)` in
`self.poppable()`, `poppable_tensors[name] = skip_tracker.load(batch, ns, name)`,
re-raising an absent key as `RuntimeError("'name' has not been stashed")`.
A failure carries the tracker as already mutated by the earlier loads. -/
def loadPoppable {Tensor α : Type} (s : SkippableInst Tensor α) :
    List String → Tracker Tensor → List (String × Option Tensor) →
    Except (RErr × Tracker Tensor) (List (String × Option Tensor) × Tracker Tensor)
  | [], tr, acc => .ok (acc, tr)
  | name :: rest, tr, acc =>
      match trackerLoad tr (s.namespaced name) with
      | none => .error (RErr.notStashed name, tr)
      | some (tensor, tr') => loadPoppable s rest tr' (acc ++ [(name, tensor)])

/-- The final phase of `forward`: for each `(ns, name)` in
`self.stashable()`, `skip_tracker.save(batch, ns, name, stashed_tensors[name])`.
(The lookup cannot miss here: `forward` runs this phase only after the
`not_stashed` check passed.) -/
def saveStashed {Tensor α : Type} (s : SkippableInst Tensor α) :
    List String → List (String × Option Tensor) → Tracker Tensor → Tracker Tensor
  | [], _, tr => tr
  | name :: rest, stashed, tr =>
      match listLookup stashed name with
      | none => saveStashed s rest stashed tr
      | some tensor => saveStashed s rest stashed (trackerSave tr (s.namespaced name) tensor)

/-- The method `Skippable.forward(input)`, with the current micro-batch's tracker
threaded explicitly: load every poppable name from the tracker, dispatch
the computation, check that every stashable name was stashed and every
preloaded value was popped, then save the stashed tensors.  An error
carries the tracker state at the raise site. -/
def forward {Tensor α : Type} (s : SkippableInst Tensor α) (input : α)
    (tr : Tracker Tensor) : Except (RErr × Tracker Tensor) (α × Tracker Tensor) :=
  match loadPoppable s s.poppable_names tr [] with
  | .error e => .error e
  | .ok (poppable_tensors, tr1) =>
      match dispatch s (handle_stash s) (handle_pop s) input ⟨[], poppable_tensors⟩ with
      | .error e => .error (e, tr1)
      | .ok (output, st) =>
          let not_stashed := s.stashable_names.filter
            (fun n => (listLookup st.stashed n).isNone)
          let not_popped := st.poppable.map Prod.fst
          if not_stashed ≠ [] then
            .error (RErr.mustBeStashed not_stashed, tr1)
          else if not_popped ≠ [] then
            .error (RErr.mustBePopped not_popped, tr1)
          else
            .ok (output, saveStashed s s.stashable_names st.stashed tr1)

/-! ## Concrete instances and sequences used to instantiate the theorems -/

/-- A layer that declares no skip names at all (or is not `Skippable`). -/
def emptyDecl (p : VLayer) : Prop :=
  match p.2 with
  | none => True
  | some d => d.stashable_names = [] ∧ d.poppable_names = []

/-- An instance of a stage type stashing `"x"`, with Python id 0 and
`isolate` never called. -/
def stashXInstA : SkippableInst Nat Nat :=
  ⟨0, ["x"], [], [], fun x => ModuleResult.plain x⟩

/-- A second, distinct instance (Python id 1) of the same stage type,
also with `isolate` never called. -/
def stashXInstB : SkippableInst Nat Nat :=
  ⟨1, ["x"], [], [], fun x => ModuleResult.plain x⟩

/-- A stage declaring `stash={"a"}, pop={"b"}` whose computation never
stashes nor pops: after dispatch, `"a"` was not stashed and the preloaded
`"b"` was not consumed. -/
def lazyStage : SkippableInst Nat Nat :=
  ⟨0, ["a"], ["b"], [], fun x => ModuleResult.plain x⟩

/-- A stage declaring `pop={"b"}` with no namespace override. -/
def popBStage : SkippableInst Nat Nat :=
  ⟨0, [], ["b"], [], fun x => ModuleResult.plain x⟩

/-- A sequence with two independent violations: layer `"0"` pops `"t"`
which is never stashed, and layer `"1"` stashes `"s"` which is never
popped. -/
def twoViolationSeq : List VLayer :=
  [("0", some ⟨[], ["t"], []⟩), ("1", some ⟨["s"], [], []⟩)]

/-! ## Helper lemmas: association lists -/

theorem listLookup_listInsert {κ β : Type} [DecidableEq κ] (k k' : κ) (v : β)
    (l : List (κ × β)) :
    listLookup (listInsert k v l) k' = if k' = k then some v else listLookup l k' := by
  induction l with
  | nil => simp [listInsert, listLookup]
  | cons p rest ih =>
      obtain ⟨k2, v2⟩ := p
      by_cases h : k = k2
      · subst h
        by_cases h' : k' = k <;> simp [listInsert, listLookup, h']
      · have h3 : ¬ k2 = k := fun he => h he.symm
        by_cases h' : k' = k2 <;>
          simp [listInsert, listLookup, h, h', ih, h3]

theorem listLookup_listErase_ne {κ β : Type} [DecidableEq κ] (k k' : κ)
    (l : List (κ × β)) (h : k' ≠ k) :
    listLookup (listErase k l) k' = listLookup l k' := by
  induction l with
  | nil => rfl
  | cons p rest ih =>
      obtain ⟨k2, v2⟩ := p
      by_cases h2 : k = k2
      · subst h2
        simp [listErase, listLookup, h]
      · by_cases h' : k' = k2 <;> simp [listErase, listLookup, h2, h', ih]

theorem listLookup_foldl_listInsert {κ β : Type} [DecidableEq κ]
    (v : β) (names : List κ) (m0 : List (κ × β)) (n : κ) :
    listLookup (names.foldl (fun m name => listInsert name v m) m0) n =
      if n ∈ names then some v else listLookup m0 n := by
  induction names generalizing m0 with
  | nil => simp
  | cons a rest ih =>
      rw [List.foldl_cons, ih]
      by_cases h : n ∈ rest
      · simp [h]
      · by_cases h2 : n = a <;>
          simp [h, h2, listLookup_listInsert, List.mem_cons]

theorem listLookup_map_pair {β : Type} (f : String → β) (names : List String)
    (n : String) (hnd : names.Nodup) (hn : n ∈ names) :
    listLookup (names.map (fun n' => (n', f n'))) n = some (f n) := by
  induction names with
  | nil => cases hn
  | cons a rest ih =>
      rcases List.mem_cons.mp hn with h | h
      · subst h
        simp [listLookup]
      · have hna : n ≠ a := by
          rintro rfl
          exact (List.nodup_cons.mp hnd).1 h
        simp [listLookup, hna, ih (List.nodup_cons.mp hnd).2 h]

/-! ## Helper lemmas: joining messages into one error string -/

theorem mem_joinSep_isInf (sep : String) (l : List String) (x : String) (hx : x ∈ l) :
    x.data <:+: (joinSep sep l).data := by
  induction l with
  | nil => cases hx
  | cons a xs ih =>
      cases hx with
      | head =>
          cases xs with
          | nil => exact ⟨[], [], by simp [joinSep]⟩
          | cons b ys =>
              refine ⟨[], (sep ++ joinSep sep (b :: ys)).data, ?_⟩
              simp [joinSep, String.data_append]
      | tail _ hmem =>
          cases xs with
          | nil => cases hmem
          | cons b ys =>
              obtain ⟨s, t, hst⟩ := ih hmem
              refine ⟨(a ++ sep).data ++ s, t, ?_⟩
              simp [joinSep, String.data_append, ← hst, List.append_assoc]

theorem isInf_append_left (h s : String) (l : List Char) (hx : l <:+: s.data) :
    l <:+: (h ++ s).data := by
  obtain ⟨a, b, hab⟩ := hx
  exact ⟨h.data ++ a, b, by simp [String.data_append, ← hab, List.append_assoc]⟩

/-! ## Helper lemmas: the verifier scan -/

theorem foldl_stashStep_popped (lnm : String) (d : SkipDecl) (names : List String) :
    ∀ st : VState, (names.foldl (stashStep lnm d) st).popped = st.popped := by
  induction names with
  | nil => intro st; rfl
  | cons a rest ih =>
      intro st
      rw [List.foldl_cons, ih]
      unfold stashStep
      split_ifs <;> rfl

theorem foldl_popStep_stashed (lnm : String) (d : SkipDecl) (names : List String) :
    ∀ st : VState, (names.foldl (popStep lnm d) st).stashed = st.stashed := by
  induction names with
  | nil => intro st; rfl
  | cons a rest ih =>
      intro st
      rw [List.foldl_cons, ih]
      unfold popStep
      split_ifs <;> rfl

theorem foldl_stashStep_stashed_iff (lnm : String) (d : SkipDecl) (names : List String)
    (ns : Option Namespace) (n : String) (hn : n ∈ d.poppable_names) :
    ∀ st : VState,
      ((ns, n) ∈ (names.foldl (stashStep lnm d) st).stashed ↔ (ns, n) ∈ st.stashed) := by
  induction names with
  | nil => intro st; exact Iff.rfl
  | cons a rest ih =>
      intro st
      rw [List.foldl_cons, ih]
      unfold stashStep
      split_ifs with h1 h2
      · exact Iff.rfl
      · exact Iff.rfl
      · have hne : ((ns, n) : SkipKey) ≠ d.namespaced a := by
          intro he
          have h2 := congrArg Prod.snd he
          simp [SkipDecl.namespaced] at h2
          exact h1 (h2 ▸ hn)
        simp [List.mem_append, hne]

theorem foldl_popStep_popped_iff (lnm : String) (d : SkipDecl) (names : List String)
    (ns : Option Namespace) (n : String) (hn : n ∈ d.stashable_names) :
    ∀ st : VState,
      ((ns, n) ∈ (names.foldl (popStep lnm d) st).popped ↔ (ns, n) ∈ st.popped) := by
  induction names with
  | nil => intro st; exact Iff.rfl
  | cons a rest ih =>
      intro st
      rw [List.foldl_cons, ih]
      unfold popStep
      split_ifs with h1 h2 h3
      · exact Iff.rfl
      · exact Iff.rfl
      · have hne : ((ns, n) : SkipKey) ≠ d.namespaced a := by
          intro he
          have h4 := congrArg Prod.snd he
          simp [SkipDecl.namespaced] at h4
          exact h1 (h4 ▸ hn)
        simp [List.mem_append, hne]
      · exact Iff.rfl

theorem foldl_stashStep_msgs_mono (lnm : String) (d : SkipDecl) (names : List String) :
    ∀ (st : VState) (m : VMsg), m ∈ st.msgs → m ∈ (names.foldl (stashStep lnm d) st).msgs := by
  induction names with
  | nil => intro st m hm; exact hm
  | cons a rest ih =>
      intro st m hm
      rw [List.foldl_cons]
      apply ih
      unfold stashStep
      split_ifs <;> simp [hm]

theorem foldl_popStep_msgs_mono (lnm : String) (d : SkipDecl) (names : List String) :
    ∀ (st : VState) (m : VMsg), m ∈ st.msgs → m ∈ (names.foldl (popStep lnm d) st).msgs := by
  induction names with
  | nil => intro st m hm; exact hm
  | cons a rest ih =>
      intro st m hm
      rw [List.foldl_cons]
      apply ih
      unfold popStep
      split_ifs <;> simp [hm]

theorem foldl_stashStep_msgs_shape (lnm : String) (d : SkipDecl) (names : List String) :
    ∀ (st : VState), ∀ m ∈ (names.foldl (stashStep lnm d) st).msgs,
      m ∈ st.msgs ∨ ∃ n', n' ∉ d.poppable_names ∧ m = VMsg.redeclaredStashable lnm n' := by
  induction names with
  | nil => intro st m hm; exact Or.inl hm
  | cons a rest ih =>
      intro st m hm
      rw [List.foldl_cons] at hm
      rcases ih _ m hm with h | h
      · unfold stashStep at h
        split_ifs at h with h1 h2
        · exact Or.inl h
        · simp at h
          rcases h with h | h
          · exact Or.inl h
          · exact Or.inr ⟨a, h1, h⟩
        · exact Or.inl h
      · exact Or.inr h

theorem foldl_popStep_msgs_shape (lnm : String) (d : SkipDecl) (names : List String) :
    ∀ (st : VState), ∀ m ∈ (names.foldl (popStep lnm d) st).msgs,
      m ∈ st.msgs ∨ ∃ n', n' ∉ d.stashable_names ∧
        (m = VMsg.redeclaredPoppable lnm n' ∨ m = VMsg.poppableNotStashed lnm n') := by
  induction names with
  | nil => intro st m hm; exact Or.inl hm
  | cons a rest ih =>
      intro st m hm
      rw [List.foldl_cons] at hm
      rcases ih _ m hm with h | h
      · unfold popStep at h
        split_ifs at h with h1 h2 h3
        · exact Or.inl h
        · simp at h
          rcases h with h | h
          · exact Or.inl h
          · exact Or.inr ⟨a, h1, Or.inl h⟩
        · exact Or.inl h
        · simp at h
          rcases h with h | h
          · exact Or.inl h
          · exact Or.inr ⟨a, h1, Or.inr h⟩
      · exact Or.inr h

theorem processLayer_emptyDecl (st : VState) (p : VLayer) (h : emptyDecl p) :
    processLayer st p = st := by
  obtain ⟨nm, od⟩ := p
  cases od with
  | none => rfl
  | some d =>
      unfold emptyDecl at h
      simp at h
      unfold processLayer
      simp [h.1, h.2, selfConflictMsgs]

theorem foldl_processLayer_emptyDecl (l : List VLayer) :
    ∀ st : VState, (∀ p ∈ l, emptyDecl p) → l.foldl processLayer st = st := by
  induction l with
  | nil => intro st _; rfl
  | cons a rest ih =>
      intro st h
      rw [List.foldl_cons, processLayer_emptyDecl st a (h a (List.mem_cons_self a rest))]
      exact ih st (fun p hp => h p (List.mem_cons_of_mem a hp))

/-! ## Helper lemmas: the preload phase of `forward` -/

theorem loadPoppable_ok {Tensor α : Type} (s : SkippableInst Tensor α) (names : List String)
    (hnd : names.Nodup) :
    ∀ (tr : Tracker Tensor) (acc : List (String × Option Tensor)),
      (∀ n ∈ names, (listLookup tr (s.namespaced n)).isSome) →
      ∃ tr1, loadPoppable s names tr acc =
        .ok (acc ++ names.map (fun n => (n, (listLookup tr (s.namespaced n)).getD none)), tr1) := by
  induction names with
  | nil =>
      intro tr acc _
      exact ⟨tr, by simp [loadPoppable]⟩
  | cons a rest ih =>
      intro tr acc h
      obtain ⟨v, hv⟩ := Option.isSome_iff_exists.mp (h a (List.mem_cons_self a rest))
      have hrest : ∀ n ∈ rest,
          (listLookup (listErase (s.namespaced a) tr) (s.namespaced n)).isSome := by
        intro n hn
        rw [listLookup_listErase_ne]
        · exact h n (List.mem_cons_of_mem a hn)
        · intro he
          have h2 := congrArg Prod.snd he
          simp [SkippableInst.namespaced] at h2
          exact (List.nodup_cons.mp hnd).1 (h2 ▸ hn)
      obtain ⟨tr1, htr1⟩ := ih (List.nodup_cons.mp hnd).2 (listErase (s.namespaced a) tr)
        (acc ++ [(a, v)]) hrest
      have hmap : rest.map
          (fun n => (n, (listLookup (listErase (s.namespaced a) tr) (s.namespaced n)).getD none)) =
          rest.map (fun n => (n, (listLookup tr (s.namespaced n)).getD none)) := by
        apply List.map_congr_left
        intro n hn
        rw [listLookup_listErase_ne]
        intro he
        have h2 := congrArg Prod.snd he
        simp [SkippableInst.namespaced] at h2
        exact (List.nodup_cons.mp hnd).1 (h2 ▸ hn)
      refine ⟨tr1, ?_⟩
      unfold loadPoppable trackerLoad
      rw [hv]
      simp only []
      rw [htr1, hmap]
      simp [hv, List.append_assoc]

theorem loadPoppable_missing {Tensor α : Type} (s : SkippableInst Tensor α)
    (names : List String) (hnd : names.Nodup) :
    ∀ (tr : Tracker Tensor) (acc : List (String × Option Tensor)),
      (∃ n ∈ names, listLookup tr (s.namespaced n) = none) →
      ∃ m ∈ names, listLookup tr (s.namespaced m) = none ∧
        ∃ tr', loadPoppable s names tr acc = .error (RErr.notStashed m, tr') := by
  induction names with
  | nil =>
      intro tr acc h
      obtain ⟨n, hn, _⟩ := h
      cases hn
  | cons a rest ih =>
      intro tr acc h
      cases hva : listLookup tr (s.namespaced a) with
      | none =>
          refine ⟨a, List.mem_cons_self a rest, hva, tr, ?_⟩
          unfold loadPoppable trackerLoad
          rw [hva]
      | some v =>
          have hkey : ∀ n ∈ rest,
              listLookup (listErase (s.namespaced a) tr) (s.namespaced n) =
                listLookup tr (s.namespaced n) := by
            intro n hn
            apply listLookup_listErase_ne
            intro he
            have h2 := congrArg Prod.snd he
            simp [SkippableInst.namespaced] at h2
            exact (List.nodup_cons.mp hnd).1 (h2 ▸ hn)
          obtain ⟨n, hn, hnone⟩ := h
          have hn' : n ∈ rest := by
            rcases List.mem_cons.mp hn with h' | h'
            · rw [h'] at hnone
              rw [hnone] at hva
              cases hva
            · exact h'
          obtain ⟨m, hm, hmn, tr', htr'⟩ := ih (List.nodup_cons.mp hnd).2
            (listErase (s.namespaced a) tr) (acc ++ [(a, v)])
            ⟨n, hn', by rw [hkey n hn']; exact hnone⟩
          refine ⟨m, List.mem_cons_of_mem a hm, by rw [← hkey m hm]; exact hmn, tr', ?_⟩
          unfold loadPoppable trackerLoad
          rw [hva]
          simp only []
          exact htr'

theorem loadPoppable_error_shape {Tensor α : Type} (s : SkippableInst Tensor α)
    (names : List String) :
    ∀ (tr : Tracker Tensor) (acc : List (String × Option Tensor))
      (e : RErr × Tracker Tensor),
      loadPoppable s names tr acc = .error e → ∃ m, e.1 = RErr.notStashed m := by
  induction names with
  | nil =>
      intro tr acc e h
      cases h
  | cons a rest ih =>
      intro tr acc e h
      unfold loadPoppable trackerLoad at h
      cases hva : listLookup tr (s.namespaced a) with
      | none =>
          rw [hva] at h
          cases h
          exact ⟨a, rfl⟩
      | some v =>
          rw [hva] at h
          exact ih _ _ e h

/-! ## Claim theorems -/

/-- Claim C1, counterexample.  The claim says a skip name on which
`isolate` was never called is routed under the instance's own identity,
so two distinct instances of the same stage type never share a tracker
slot.  In the code, `Skippable.namespaced` falls back to Python `None`
(`self.namespaces.get(name)`), which is one shared default: the two
distinct instances `stashXInstA` and `stashXInstB` of the same stage
type produce the identical key `(None, "x")`, and a value saved under
instance A's key is loaded back by instance B's key. -/
theorem namespaced_default_collision_cex :
    stashXInstA.instId ≠ stashXInstB.instId ∧
    stashXInstA.stashable_names = stashXInstB.stashable_names ∧
    stashXInstA.poppable_names = stashXInstB.poppable_names ∧
    stashXInstA.namespaces = [] ∧
    stashXInstB.namespaces = [] ∧
    stashXInstA.namespaced "x" = stashXInstB.namespaced "x" ∧
    trackerLoad (trackerSave ([] : Tracker Nat) (stashXInstA.namespaced "x") (some 5))
      (stashXInstB.namespaced "x") = some (some 5, []) :=
  ⟨by decide, rfl, rfl, rfl, rfl, rfl, rfl⟩

/-- Claim C1, amended: for every skip name on which `isolate` was never
called (no entry in the instance's `namespaces` dict), the stash/pop
routing key is `(None, name)` — a default shared by every instance — so
two distinct instances of the same stage type stashing/popping the same
name address the *same* tracker slot unless the user explicitly isolates
them into distinct namespaces. -/
theorem namespaced_default_is_shared {Tensor α Tensor' α' : Type}
    (s1 : SkippableInst Tensor α) (s2 : SkippableInst Tensor' α') (name : String)
    (h1 : listLookup s1.namespaces name = none)
    (h2 : listLookup s2.namespaces name = none) :
    s1.namespaced name = (none, name) ∧ s1.namespaced name = s2.namespaced name := by
  unfold SkippableInst.namespaced
  rw [h1, h2]
  exact ⟨rfl, rfl⟩

/-- Claim C1, witness for the amended theorem at two concrete instances. -/
theorem namespaced_default_is_shared_witness :
    stashXInstA.namespaced "x" = (none, "x") ∧
    stashXInstA.namespaced "x" = stashXInstB.namespaced "x" :=
  namespaced_default_is_shared stashXInstA stashXInstB "x" rfl rfl

/-- Claim C7: inside a stage call, a `stash` command whose name is not in
the declared stashable set fails with the "has not been declared as
stashable" error, and a `pop` command whose name is not in the declared
poppable set fails with the "has not been declared as poppable" error. -/
theorem dispatch_undeclared_name_error {Tensor α : Type} (s : SkippableInst Tensor α)
    (name : String) (tensor : Option Tensor) (k : Gen Tensor α)
    (k' : Option Tensor → Gen Tensor α) (st : DState Tensor) :
    (name ∉ s.stashable_names →
      dispatchGen (handle_stash s) (handle_pop s) (Gen.stashCmd name tensor k) st =
        .error (RErr.notDeclaredStashable name)) ∧
    (name ∉ s.poppable_names →
      dispatchGen (handle_stash s) (handle_pop s) (Gen.popCmd name k') st =
        .error (RErr.notDeclaredPoppable name)) := by
  constructor
  · intro h
    simp [dispatchGen, handle_stash, h]
  · intro h
    simp [dispatchGen, handle_pop, h]

/-- Claim C7, witness: the stage declaring `stash={"x"}` rejects
`stash("z", ...)` and `pop("z")`. -/
theorem dispatch_undeclared_name_error_witness :
    dispatchGen (handle_stash stashXInstA) (handle_pop stashXInstA)
      (Gen.stashCmd "z" (some 1) (Gen.ret 0)) (⟨[], []⟩ : DState Nat) =
      .error (RErr.notDeclaredStashable "z") ∧
    dispatchGen (handle_stash stashXInstA) (handle_pop stashXInstA)
      (Gen.popCmd "z" (fun _ => Gen.ret 0)) (⟨[], []⟩ : DState Nat) =
      .error (RErr.notDeclaredPoppable "z") :=
  ⟨(dispatch_undeclared_name_error stashXInstA "z" (some 1) (Gen.ret 0)
      (fun _ => Gen.ret 0) ⟨[], []⟩).1 (by decide),
   (dispatch_undeclared_name_error stashXInstA "z" (some 1) (Gen.ret 0)
      (fun _ => Gen.ret 0) ⟨[], []⟩).2 (by decide)⟩

/-- Claim C8: a stage whose computation never emits a stash or pop
command — `self.module(input)` is not a generator, or is a generator that
stops immediately — makes `dispatch` return the computation's value
unchanged, for arbitrary handlers and with the handler state untouched
(no value is injected and nothing is recorded for the tracker). -/
theorem dispatch_fast_path {Tensor α σ : Type} (s : SkippableInst Tensor α)
    (hs : String → Option Tensor → σ → Except RErr σ)
    (hp : String → σ → Except RErr (Option Tensor × σ))
    (input : α) (st : σ) (out : α)
    (h : s.module input = ModuleResult.plain out ∨
      s.module input = ModuleResult.gen (Gen.ret out)) :
    dispatch s hs hp input st = .ok (out, st) := by
  unfold dispatch
  rcases h with h | h <;> rw [h]
  rfl

/-- Claim C8, witness: a plain (non-generator) module returns its output
through `dispatch` unchanged. -/
theorem dispatch_fast_path_witness :
    dispatch stashXInstA (handle_stash stashXInstA) (handle_pop stashXInstA) 7
      (⟨[], []⟩ : DState Nat) = .ok (7, ⟨[], []⟩) :=
  dispatch_fast_path stashXInstA _ _ 7 _ 7 (Or.inl rfl)

/-- Claim C9: `isolate(ns, only)` overrides the namespace to `ns` for
exactly the names in `only` (all declared names when `only` is omitted),
validates nothing at call time (any name in `only` is accepted and
rebound), and returns the same instance — identity and every other field
untouched. -/
theorem isolate_rebinds_namespaces {Tensor α : Type} (s : SkippableInst Tensor α)
    (ns : Namespace) (only : Option (List String)) :
    (s.isolate ns only).instId = s.instId ∧
    (s.isolate ns only).stashable_names = s.stashable_names ∧
    (s.isolate ns only).poppable_names = s.poppable_names ∧
    (s.isolate ns only).module = s.module ∧
    ∀ n, listLookup (s.isolate ns only).namespaces n =
      if n ∈ isolateTargets s only then some ns else listLookup s.namespaces n := by
  refine ⟨rfl, rfl, rfl, rfl, ?_⟩
  intro n
  unfold SkippableInst.isolate
  exact listLookup_foldl_listInsert ns (isolateTargets s only) s.namespaces n

/-- Claim C2: `verify_skippables` raises no error exactly when the scan
found no violation, and otherwise raises one single error whose message
contains, as a substring, the rendered text of every violation found
across the whole sequence (in particular both messages of a sequence with
two independent violations). -/
theorem verify_one_error_mentions_all (layers : List VLayer) :
    (verify_skippables layers = none ↔ verifyMsgs layers = []) ∧
    ∀ m ∈ verifyMsgs layers, ∃ e, verify_skippables layers = some e ∧
      (renderVMsg m).data <:+: e.data := by
  constructor
  · by_cases h : verifyMsgs layers = [] <;> simp [verify_skippables, h]
  · intro m hm
    have hne : verifyMsgs layers ≠ [] := by
      intro he
      rw [he] at hm
      cases hm
    refine ⟨verifyErrorText (verifyMsgs layers), by simp [verify_skippables, hne], ?_⟩
    unfold verifyErrorText
    apply isInf_append_left
    have h1 : ("* " ++ renderVMsg m) ∈ (verifyMsgs layers).map (fun x => "* " ++ renderVMsg x) :=
      List.mem_map.mpr ⟨m, hm, rfl⟩
    have h2 := mem_joinSep_isInf "\n" ((verifyMsgs layers).map (fun x => "* " ++ renderVMsg x))
      ("* " ++ renderVMsg m) h1
    have h3 : (renderVMsg m).data <:+: ("* " ++ renderVMsg m).data :=
      ⟨"* ".data, [], by simp [String.data_append]⟩
    exact h3.trans h2

/-- Claim C2, witness: in the sequence where layer `"0"` pops `"t"`
(never stashed) and layer `"1"` stashes `"s"` (never popped), a single
error is raised and its message contains both violation texts. -/
theorem verify_one_error_mentions_all_witness :
    (verify_skippables twoViolationSeq).isSome = true ∧
    (renderVMsg (VMsg.poppableNotStashed "0" "t")).data <:+:
      ((verify_skippables twoViolationSeq).getD "").data ∧
    (renderVMsg (VMsg.notPoppedByAny "s")).data <:+:
      ((verify_skippables twoViolationSeq).getD "").data := by
  obtain ⟨e1, he1, hinf1⟩ := (verify_one_error_mentions_all twoViolationSeq).2
    (VMsg.poppableNotStashed "0" "t") (by decide)
  obtain ⟨e2, he2, hinf2⟩ := (verify_one_error_mentions_all twoViolationSeq).2
    (VMsg.notPoppedByAny "s") (by decide)
  have he : e1 = e2 := Option.some.inj (he1.symm.trans he2)
  refine ⟨by rw [he1]; rfl, ?_, ?_⟩
  · rw [he1, Option.getD_some]
    exact hinf1
  · rw [he1, Option.getD_some, he]
    exact hinf2

/-- Claim C4: a sequence in which one stage declares a name as stashable,
a strictly later stage declares the same name as poppable under the same
namespace, and no other layer declares any skip name, passes
`verify_skippables` with no error. -/
theorem verify_single_pair_ok (pre mid post : List VLayer) (nmA nmB n : String)
    (dA dB : SkipDecl)
    (hA1 : dA.stashable_names = [n]) (hA2 : dA.poppable_names = [])
    (hB1 : dB.stashable_names = []) (hB2 : dB.poppable_names = [n])
    (hns : listLookup dA.namespaces n = listLookup dB.namespaces n)
    (hpre : ∀ p ∈ pre, emptyDecl p) (hmid : ∀ p ∈ mid, emptyDecl p)
    (hpost : ∀ p ∈ post, emptyDecl p) :
    verify_skippables (pre ++ (nmA, some dA) :: mid ++ (nmB, some dB) :: post) = none := by
  have hkey : dB.namespaced n = dA.namespaced n := by
    unfold SkipDecl.namespaced
    rw [hns]
  have hA : processLayer ⟨[], [], []⟩ ((nmA, some dA) : VLayer) =
      ⟨[dA.namespaced n], [], []⟩ := by
    unfold processLayer selfConflictMsgs
    simp [hA1, hA2, stashStep]
  have hB : processLayer ⟨[dA.namespaced n], [], []⟩ ((nmB, some dB) : VLayer) =
      ⟨[dA.namespaced n], [dA.namespaced n], []⟩ := by
    unfold processLayer selfConflictMsgs
    simp [hB1, hB2, popStep, hkey]
  have s1 : List.foldl processLayer ⟨[], [], []⟩ ((nmA, some dA) :: mid) =
      ⟨[dA.namespaced n], [], []⟩ := by
    rw [List.foldl_cons, hA, foldl_processLayer_emptyDecl mid _ hmid]
  have s2 : List.foldl processLayer ⟨[], [], []⟩ (pre ++ (nmA, some dA) :: mid) =
      ⟨[dA.namespaced n], [], []⟩ := by
    rw [List.foldl_append, foldl_processLayer_emptyDecl pre _ hpre, s1]
  have s3 : List.foldl processLayer ⟨[], [], []⟩
      (pre ++ (nmA, some dA) :: mid ++ (nmB, some dB) :: post) =
      ⟨[dA.namespaced n], [dA.namespaced n], []⟩ := by
    rw [List.foldl_append, s2, List.foldl_cons, hB, foldl_processLayer_emptyDecl post _ hpost]
  unfold verify_skippables verifyMsgs verifyState
  rw [s3]
  simp [finalMsgs]

/-- Claim C4, witness: `[stash={"x"}, plain, pop={"x"}]` verifies. -/
theorem verify_single_pair_ok_witness :
    verify_skippables [("0", some ⟨["x"], [], []⟩), ("1", none),
      ("2", some ⟨[], ["x"], []⟩)] = none :=
  verify_single_pair_ok [] [("1", none)] [] "0" "2" "x" ⟨["x"], [], []⟩ ⟨[], ["x"], []⟩
    rfl rfl rfl rfl rfl
    (fun p hp => by cases hp)
    (fun p hp => by
      rw [List.mem_singleton] at hp
      subst hp
      trivial)
    (fun p hp => by cases hp)

/-- Claim C5: a stage declaring a name both stashable and poppable gets a
self-conflict report, and that name on that stage is excluded from the
cross-stage accounting: processing the layer adds no key with that name
to `stashed` or `popped`, and emits no other message about that name. -/
theorem verify_self_conflict_excluded (lnm : String) (d : SkipDecl) (st : VState)
    (n : String) (h1 : n ∈ d.stashable_names) (h2 : n ∈ d.poppable_names) :
    VMsg.selfConflict lnm n ∈ (processLayer st (lnm, some d)).msgs ∧
    (∀ ns, ((ns, n) ∈ (processLayer st (lnm, some d)).stashed ↔ (ns, n) ∈ st.stashed)) ∧
    (∀ ns, ((ns, n) ∈ (processLayer st (lnm, some d)).popped ↔ (ns, n) ∈ st.popped)) ∧
    (∀ m ∈ (processLayer st (lnm, some d)).msgs, m ∉ st.msgs → m.skipName = n →
      m = VMsg.selfConflict lnm n) := by
  have hred : processLayer st ((lnm, some d) : VLayer) =
      d.poppable_names.foldl (popStep lnm d)
        (d.stashable_names.foldl (stashStep lnm d)
          ⟨st.stashed, st.popped, st.msgs ++ selfConflictMsgs lnm d⟩) := rfl
  rw [hred]
  have hconf : VMsg.selfConflict lnm n ∈ st.msgs ++ selfConflictMsgs lnm d := by
    apply List.mem_append_right
    unfold selfConflictMsgs
    exact List.mem_map.mpr ⟨n, List.mem_filter.mpr ⟨h1, by simp [h2]⟩, rfl⟩
  refine ⟨?_, ?_, ?_, ?_⟩
  · apply foldl_popStep_msgs_mono
    apply foldl_stashStep_msgs_mono
    exact hconf
  · intro ns
    rw [foldl_popStep_stashed]
    exact foldl_stashStep_stashed_iff lnm d d.stashable_names ns n h2 _
  · intro ns
    have hx := foldl_popStep_popped_iff lnm d d.poppable_names ns n h1
      (d.stashable_names.foldl (stashStep lnm d)
        ⟨st.stashed, st.popped, st.msgs ++ selfConflictMsgs lnm d⟩)
    rw [foldl_stashStep_popped] at hx
    exact hx
  · intro m hm hnotin hname
    rcases foldl_popStep_msgs_shape lnm d d.poppable_names _ m hm with h | h
    · rcases foldl_stashStep_msgs_shape lnm d d.stashable_names _ m h with h' | h'
      · rcases List.mem_append.mp h' with h3 | h3
        · exact absurd h3 hnotin
        · unfold selfConflictMsgs at h3
          obtain ⟨x, hx1, hx2⟩ := List.mem_map.mp h3
          rw [← hx2] at hname ⊢
          simp [VMsg.skipName] at hname
          rw [hname]
      · obtain ⟨n', hn', he⟩ := h'
        rw [he] at hname
        simp [VMsg.skipName] at hname
        subst hname
        exact absurd h2 hn'
    · obtain ⟨n', hn', he⟩ := h
      rcases he with he | he <;>
        (rw [he] at hname
         simp [VMsg.skipName] at hname
         subst hname
         exact absurd h1 hn')

/-- Claim C5, witness: the layer declaring `"x"` both ways, starting from
the empty verifier state: the self-conflict is reported and no key named
`"x"` enters `stashed` or `popped`. -/
theorem verify_self_conflict_excluded_witness :
    VMsg.selfConflict "0" "x" ∈
      (processLayer ⟨[], [], []⟩ (("0", some ⟨["x"], ["x"], []⟩) : VLayer)).msgs ∧
    (((none, "x") : SkipKey) ∈
        (processLayer ⟨[], [], []⟩ (("0", some ⟨["x"], ["x"], []⟩) : VLayer)).stashed ↔
      ((none, "x") : SkipKey) ∈ ([] : List SkipKey)) ∧
    (((none, "x") : SkipKey) ∈
        (processLayer ⟨[], [], []⟩ (("0", some ⟨["x"], ["x"], []⟩) : VLayer)).popped ↔
      ((none, "x") : SkipKey) ∈ ([] : List SkipKey)) :=
  ⟨(verify_self_conflict_excluded "0" ⟨["x"], ["x"], []⟩ ⟨[], [], []⟩ "x"
      (by decide) (by decide)).1,
   (verify_self_conflict_excluded "0" ⟨["x"], ["x"], []⟩ ⟨[], [], []⟩ "x"
      (by decide) (by decide)).2.1 none,
   (verify_self_conflict_excluded "0" ⟨["x"], ["x"], []⟩ ⟨[], [], []⟩ "x"
      (by decide) (by decide)).2.2.1 none⟩


/-- Claim C3, counterexample.  The claim says that when a call ends with
both a never-stashed declared stashable name and a never-consumed
preloaded poppable value, the post-dispatch check reports all violations
of both kinds.  In the code the two checks run in sequence and each
`raise` aborts: for `lazyStage` (declares `stash={"a"}, pop={"b"}`, does
neither), the preloaded `"b"` is left unconsumed, yet the only error
raised is the incomplete-stash one for `["a"]`, which does not mention
`"b"`. -/
theorem forward_both_kinds_cex :
    lazyStage.stashable_names = ["a"] ∧
    lazyStage.poppable_names = ["b"] ∧
    dispatch lazyStage (handle_stash lazyStage) (handle_pop lazyStage) 7
      (⟨[], [("b", some 5)]⟩ : DState Nat) = .ok (7, ⟨[], [("b", some 5)]⟩) ∧
    forward lazyStage 7 [((none, "b"), some 5)] =
      .error (RErr.mustBeStashed ["a"], []) ∧
    ("b" : String) ∉ ["a"] :=
  ⟨rfl, rfl, rfl, rfl, by decide⟩

/-- Claim C3, amended: each post-dispatch completeness error lists every
offending name of its own kind (`IncompleteStashError` all never-stashed
stashable names, `UnconsumedPopError` all unconsumed preloaded names),
but when violations of both kinds are present only the incomplete-stash
error is raised; the unconsumed-pop error is raised only when every
declared stashable name was stashed. -/
theorem forward_completeness_gating {Tensor α : Type} (s : SkippableInst Tensor α)
    (input : α) (tr tr1 : Tracker Tensor) (pt : List (String × Option Tensor))
    (out : α) (st : DState Tensor)
    (hload : loadPoppable s s.poppable_names tr [] = .ok (pt, tr1))
    (hdisp : dispatch s (handle_stash s) (handle_pop s) input ⟨[], pt⟩ = .ok (out, st)) :
    (s.stashable_names.filter (fun n => (listLookup st.stashed n).isNone) ≠ [] →
      forward s input tr = .error (RErr.mustBeStashed
        (s.stashable_names.filter (fun n => (listLookup st.stashed n).isNone)), tr1)) ∧
    (s.stashable_names.filter (fun n => (listLookup st.stashed n).isNone) = [] →
      st.poppable.map Prod.fst ≠ [] →
      forward s input tr = .error (RErr.mustBePopped (st.poppable.map Prod.fst), tr1)) := by
  constructor
  · intro hns
    unfold forward
    simp only [hload, hdisp]
    rw [if_pos hns]
  · intro hns hnp
    unfold forward
    simp only [hload, hdisp]
    rw [if_neg (not_not_intro hns), if_pos hnp]

/-- Claim C3, witness for the amended theorem: `lazyStage` fails with the
incomplete-stash error listing `"a"`; `popBStage` (nothing to stash, the
preloaded `"b"` unconsumed) fails with the unconsumed-pop error listing
`"b"`. -/
theorem forward_completeness_gating_witness :
    forward lazyStage 7 [((none, "b"), some 5)] =
      .error (RErr.mustBeStashed ["a"], []) ∧
    forward popBStage 7 [((none, "b"), some 5)] =
      .error (RErr.mustBePopped ["b"], []) :=
  ⟨(forward_completeness_gating lazyStage 7 [((none, "b"), some 5)] []
      [("b", some 5)] 7 ⟨[], [("b", some 5)]⟩ rfl rfl).1 (by decide),
   (forward_completeness_gating popBStage 7 [((none, "b"), some 5)] []
      [("b", some 5)] 7 ⟨[], [("b", some 5)]⟩ rfl rfl).2 rfl (by decide)⟩

/-- Claim C6: before the computation runs, `forward` loads every
`(namespace, name)` of the stage's poppable set from the current tracker:
if any such key is absent the call fails with the "has not been stashed"
error for a missing name, and if all are present the preload table maps
every poppable name to the tracker's value for its namespaced key. -/
theorem forward_preloads_poppable {Tensor α : Type} (s : SkippableInst Tensor α)
    (input : α) (tr : Tracker Tensor) (hnd : s.poppable_names.Nodup) :
    ((∃ n ∈ s.poppable_names, listLookup tr (s.namespaced n) = none) →
      ∃ m ∈ s.poppable_names, listLookup tr (s.namespaced m) = none ∧
        ∃ tr', forward s input tr = .error (RErr.notStashed m, tr')) ∧
    ((∀ n ∈ s.poppable_names, (listLookup tr (s.namespaced n)).isSome) →
      ∃ pt tr1, loadPoppable s s.poppable_names tr [] = .ok (pt, tr1) ∧
        ∀ n ∈ s.poppable_names, listLookup pt n =
          some ((listLookup tr (s.namespaced n)).getD none)) := by
  constructor
  · intro h
    obtain ⟨m, hm, hmn, tr', htr'⟩ := loadPoppable_missing s s.poppable_names hnd tr [] h
    refine ⟨m, hm, hmn, tr', ?_⟩
    simp [forward, htr']
  · intro h
    obtain ⟨tr1, htr1⟩ := loadPoppable_ok s s.poppable_names hnd tr [] h
    refine ⟨s.poppable_names.map (fun n => (n, (listLookup tr (s.namespaced n)).getD none)),
      tr1, by simpa using htr1, ?_⟩
    intro n hn
    exact listLookup_map_pair (fun x => (listLookup tr (s.namespaced x)).getD none)
      s.poppable_names n hnd hn

/-- Claim C6, witness: with an empty tracker, `popBStage` fails reporting
`"b"` as not stashed; with `(None, "b")` present, the preload phase loads
it. -/
theorem forward_preloads_poppable_witness :
    (∃ m ∈ popBStage.poppable_names,
      listLookup ([] : Tracker Nat) (popBStage.namespaced m) = none ∧
        ∃ tr', forward popBStage 7 ([] : Tracker Nat) =
          .error (RErr.notStashed m, tr')) ∧
    (∃ pt tr1, loadPoppable popBStage popBStage.poppable_names
        [((none, "b"), some 5)] [] = .ok (pt, tr1) ∧
      ∀ n ∈ popBStage.poppable_names, listLookup pt n =
        some ((listLookup ([((none, "b"), some 5)] : Tracker Nat)
          (popBStage.namespaced n)).getD none)) :=
  ⟨(forward_preloads_poppable popBStage 7 [] (by decide)).1 ⟨"b", by decide, rfl⟩,
   (forward_preloads_poppable popBStage 7 [((none, "b"), some 5)] (by decide)).2
     (by decide)⟩

/-- Claim C10: when `forward` fails one of the post-dispatch completeness
checks, the tracker it leaves behind is exactly the tracker produced by
the preload phase — the stashed values were not saved; saving happens
only after both checks pass. -/
theorem forward_saves_only_after_checks {Tensor α : Type} (s : SkippableInst Tensor α)
    (input : α) (tr tr' : Tracker Tensor) (names : List String) :
    (forward s input tr = .error (RErr.mustBeStashed names, tr') →
      ∃ pt, loadPoppable s s.poppable_names tr [] = .ok (pt, tr')) ∧
    (forward s input tr = .error (RErr.mustBePopped names, tr') →
      ∃ pt, loadPoppable s s.poppable_names tr [] = .ok (pt, tr')) := by
  unfold forward
  cases hl : loadPoppable s s.poppable_names tr [] with
  | error e =>
      obtain ⟨m, hm⟩ := loadPoppable_error_shape s s.poppable_names tr [] e hl
      constructor <;> intro h <;>
        (rw [Except.error.injEq] at h; rw [h] at hm; simp at hm)
  | ok res =>
      obtain ⟨pt, tr1⟩ := res
      cases hd : dispatch s (handle_stash s) (handle_pop s) input ⟨[], pt⟩ with
      | error e2 =>
          constructor <;> intro h <;> simp only [hd] at h <;>
            (rw [Except.error.injEq, Prod.mk.injEq] at h
             exact ⟨pt, by rw [h.2]⟩)
      | ok res2 =>
          obtain ⟨out, st⟩ := res2
          constructor <;> intro h <;> simp only [hd] at h <;> split_ifs at h <;>
            (rw [Except.error.injEq, Prod.mk.injEq] at h
             exact ⟨pt, by rw [h.2]⟩)

/-- Claim C10, witness: on `lazyStage`'s incomplete-stash failure the
tracker at the failure is the post-preload tracker `[]` (the `"b"` slot
consumed by preloading, nothing saved). -/
theorem forward_saves_only_after_checks_witness :
    ∃ pt, loadPoppable lazyStage lazyStage.poppable_names
      [((none, "b"), some 5)] [] = .ok (pt, ([] : Tracker Nat)) :=
  (forward_saves_only_after_checks lazyStage 7 [((none, "b"), some 5)] [] ["a"]).1 rfl

end TorchGPipe
